import Mathlib

/-!
# EDF demo (`main_RTOShw2.c`): embedding and verified properties

The demo file creates three deadline tasks (`TaskA`, `TaskB`, `TaskC`) through
`xTaskDeadlineCreate`, starts the scheduler, and each task then loops over a
periodic delay, an optional work block and a report block that prints the
scheduler's instrumentation variables.

The kernel side (`xTaskDeadlineCreate`, `vTaskStartScheduler`, the deadline
scheduler, `vTaskDelayUntil`) is not part of the demo file; where a property
needs it, it is modelled from the specification and marked as such.
-/

namespace RTOShw2

/-! ## Constants of the demo file -/

/-- Relative deadline of task A (`#define A_DDL 10`). -/
def A_DDL : Nat := 10

/-- Relative deadline of task B (`#define B_DDL 10`). -/
def B_DDL : Nat := 10

/-- Relative deadline of task C (`#define C_DDL 1000`). -/
def C_DDL : Nat := 1000

/-- Width of `TickType_t` / `uint32_t` arithmetic. -/
def tickModulus : Nat := 2 ^ 32

/-- Configuration constants that live in `FreeRTOSConfig.h`, which is not part
of the demo file; they are taken as parameters. -/
structure Config where
  /-- Tick frequency in Hz, `configTICK_RATE_HZ`. -/
  configTICK_RATE_HZ : Nat
  /-- Length of the instrumentation arrays, `configEXPECTED_EDF_TASKS`. -/
  configEXPECTED_EDF_TASKS : Nat
deriving DecidableEq, Repr

/-- Modelled from the spec: the `pdMS_TO_TICKS` macro of the kernel headers,
absent from the demo file: milliseconds are converted to ticks at the
configured tick rate, `(ms * configTICK_RATE_HZ) / 1000` in `TickType_t`
arithmetic, so that the periods are 500, 5000 and 500 ticks at one tick per
millisecond. -/
def pdMS_TO_TICKS (cfg : Config) (xTimeInMs : Nat) : Nat :=
  ((xTimeInMs * cfg.configTICK_RATE_HZ) % tickModulus) / 1000

/-- Arrival period of task A: `#define mainTASK_A_FREQUENCY_MS pdMS_TO_TICKS( 500UL )`. -/
def mainTASK_A_FREQUENCY_MS (cfg : Config) : Nat := pdMS_TO_TICKS cfg 500

/-- Arrival period of task B: `#define mainTASK_B_FREQUENCY_MS pdMS_TO_TICKS( 5000UL )`. -/
def mainTASK_B_FREQUENCY_MS (cfg : Config) : Nat := pdMS_TO_TICKS cfg 5000

/-- Arrival period of task C: `#define mainTASK_C_FREQUENCY_MS pdMS_TO_TICKS( 500UL )`
(declared by the demo file, but `TaskC` uses `mainTASK_A_FREQUENCY_MS`). -/
def mainTASK_C_FREQUENCY_MS (cfg : Config) : Nat := pdMS_TO_TICKS cfg 500

/-! ## Task creation and scheduler start (`main_hw2`) -/

/-- Entry functions handed to `xTaskDeadlineCreate`. -/
inductive TaskCode where
  | TaskA
  | TaskB
  | TaskC
deriving DecidableEq, Repr

/-- Result of a creation call. -/
inductive CreateResult where
  | pdPASS
  | CapacityExceeded
  | OutOfMemory
  | ConfigurationError
deriving DecidableEq, Repr

/-- Task descriptor of the specification's data model. -/
structure TaskDescriptor where
  entryFunction : TaskCode
  name : String
  relativeDeadline : Nat
  absoluteDeadline : Nat
  sequenceNumber : Nat
deriving DecidableEq, Repr

/-- One recorded call of `xTaskDeadlineCreate`: the arguments the demo passed
and the result the kernel returned. -/
structure CreateCall where
  pxTaskCode : TaskCode
  pcName : String
  relativeDeadline : Nat
  result : CreateResult
deriving DecidableEq, Repr

/-- A call of the kernel interface made by `main_hw2`. -/
inductive KernelEvent where
  | create (call : CreateCall)
  | startScheduler
deriving DecidableEq, Repr

/-- Kernel state as far as `main_hw2` can affect it. -/
structure Kernel where
  /-- Task registry, in creation order. -/
  registry : List TaskDescriptor
  /-- Log of the creation calls received. -/
  createCalls : List CreateCall
  /-- Number of calls of `vTaskStartScheduler` received. -/
  schedulerStarts : Nat
  /-- All calls received, creations and scheduler starts, in the order in
  which they were made. -/
  events : List KernelEvent
deriving DecidableEq, Repr

/-- Kernel state before `main_hw2` runs. -/
def Kernel.initial : Kernel :=
  { registry := [], createCalls := [], schedulerStarts := 0, events := [] }

/-- Modelled from the spec: `xTaskDeadlineCreate` of the kernel, which is not in
the demo file.  A zero relative deadline is a configuration error; a registry
already at capacity gives `CapacityExceeded`; a failed stack or control-block
allocation (`allocOk = false`) gives `OutOfMemory`; otherwise the descriptor
is registered in the next slot, its sequence number being the slot index. -/
def xTaskDeadlineCreate (capacity : Nat) (allocOk : Bool) (pxTaskCode : TaskCode)
    (pcName : String) (relativeDeadline : Nat) (k : Kernel) : CreateResult × Kernel :=
  if relativeDeadline = 0 then
    (CreateResult.ConfigurationError,
      { k with
        createCalls := k.createCalls ++
          [⟨pxTaskCode, pcName, relativeDeadline, CreateResult.ConfigurationError⟩]
        events := k.events ++
          [KernelEvent.create ⟨pxTaskCode, pcName, relativeDeadline, CreateResult.ConfigurationError⟩] })
  else if capacity ≤ k.registry.length then
    (CreateResult.CapacityExceeded,
      { k with
        createCalls := k.createCalls ++
          [⟨pxTaskCode, pcName, relativeDeadline, CreateResult.CapacityExceeded⟩]
        events := k.events ++
          [KernelEvent.create ⟨pxTaskCode, pcName, relativeDeadline, CreateResult.CapacityExceeded⟩] })
  else if allocOk = false then
    (CreateResult.OutOfMemory,
      { k with
        createCalls := k.createCalls ++
          [⟨pxTaskCode, pcName, relativeDeadline, CreateResult.OutOfMemory⟩]
        events := k.events ++
          [KernelEvent.create ⟨pxTaskCode, pcName, relativeDeadline, CreateResult.OutOfMemory⟩] })
  else
    (CreateResult.pdPASS,
      { k with
        registry := k.registry ++
          [⟨pxTaskCode, pcName, relativeDeadline, 0, k.registry.length⟩]
        createCalls := k.createCalls ++
          [⟨pxTaskCode, pcName, relativeDeadline, CreateResult.pdPASS⟩]
        events := k.events ++
          [KernelEvent.create ⟨pxTaskCode, pcName, relativeDeadline, CreateResult.pdPASS⟩] })

/-- Modelled from the spec: `vTaskStartScheduler` of the kernel, recorded as a
call received. -/
def vTaskStartScheduler (k : Kernel) : Kernel :=
  { k with
    schedulerStarts := k.schedulerStarts + 1
    events := k.events ++ [KernelEvent.startScheduler] }

/-- The function `main_hw2`, up to the final `for( ;; );`.  The `if (1==1);` is an
empty statement, the block after it always runs; the three results of
`xTaskDeadlineCreate` are discarded.  `allocOk` gives, per creation call, whether
the kernel's allocations succeed. -/
def main_hw2 (capacity : Nat) (allocOk : Fin 3 → Bool) (k : Kernel) : Kernel :=
  let k1 := (xTaskDeadlineCreate capacity (allocOk 0) TaskCode.TaskA "TA" A_DDL k).2
  let k2 := (xTaskDeadlineCreate capacity (allocOk 1) TaskCode.TaskB "TB" B_DDL k1).2
  let k3 := (xTaskDeadlineCreate capacity (allocOk 2) TaskCode.TaskC "TC" C_DDL k2).2
  vTaskStartScheduler k3

/-- Some creation call recorded in the kernel failed. -/
def Kernel.someCreationFailed (k : Kernel) : Bool :=
  k.createCalls.any (fun c => decide (c.result ≠ CreateResult.pdPASS))

/-! ## Deadline scheduler (modelled from the specification) -/

/-- Modelled from the spec: `activate(taskSlot, currentTick)` of the deadline
scheduler, absent from the demo file: `absoluteDeadline = currentTick +
relativeDeadline`, in the 32-bit arithmetic of `TickType_t`. -/
def activate (d : TaskDescriptor) (currentTick : Nat) : TaskDescriptor :=
  { d with absoluteDeadline := (currentTick + d.relativeDeadline) % tickModulus }

/-- Modelled from the spec: the scheduler's ordering of two ready tasks, absent
from the demo file: smaller absolute deadline first, ties broken by the
smaller sequence number. -/
def precedes (a b : TaskDescriptor) : Bool :=
  decide (a.absoluteDeadline < b.absoluteDeadline) ||
    (decide (a.absoluteDeadline = b.absoluteDeadline) &&
      decide (a.sequenceNumber ≤ b.sequenceNumber))

/-- Modelled from the spec: the deadline scheduler's selection of the task to
run among the ready tasks (Earliest-Deadline-First), absent from the demo file. -/
def selectNext : List TaskDescriptor → Option TaskDescriptor
  | [] => none
  | d :: rest =>
    match selectNext rest with
    | none => some d
    | some best => if precedes d best then some d else some best

/-! ## Instrumentation state and report blocks -/

/-- The global instrumentation variables declared by the demo file.  The three
arrays have `configEXPECTED_EDF_TASKS` elements, `ulTaskname` has 20. -/
structure Instr where
  ulTaskname : List Char
  ulTaskRunTimeLast : Nat
  ulTaskNumber : List Nat
  ulTaskBeginTime : List Nat
  ulTaskRunTime : List Nat
  ulTaskDDL : Nat
deriving DecidableEq, Repr

/-- The arrays of an instrumentation state have the declared lengths. -/
def Instr.WellFormed (cfg : Config) (s : Instr) : Prop :=
  s.ulTaskname.length = 20 ∧
  s.ulTaskNumber.length = cfg.configEXPECTED_EDF_TASKS ∧
  s.ulTaskBeginTime.length = cfg.configEXPECTED_EDF_TASKS ∧
  s.ulTaskRunTime.length = cfg.configEXPECTED_EDF_TASKS

/-- Argument expressions that occur in the `printf` calls of the task bodies. -/
inductive Arg where
  | ulTaskNumber (index : Nat)
  | ulTaskBeginTime (index : Nat)
  | ulTaskname
  | ulTaskDDL
deriving DecidableEq, Repr

/-- Values handed to `printf`. -/
inductive Value where
  | num (n : Nat)
  | str (s : List Char)
deriving DecidableEq, Repr

/-- Read of a character array as a C string, the way `printf` reads the
argument of a `%s` conversion (`%6s` only sets a minimum field width): the
characters before the first NUL.  An array that holds no NUL is read past its
end, which has no defined value. -/
def readCString : List Char → Option (List Char)
  | [] => none
  | c :: rest =>
    if c = Char.ofNat 0 then some [] else (readCString rest).map (fun r => c :: r)

/-- Read of an argument expression; an array read outside the array's bounds
has no defined value.  `ulTaskname` is only ever passed to a `%6s` conversion
and is read as a C string. -/
def Arg.read (s : Instr) : Arg → Option Value
  | Arg.ulTaskNumber index => (s.ulTaskNumber[index]?).map Value.num
  | Arg.ulTaskBeginTime index => (s.ulTaskBeginTime[index]?).map Value.num
  | Arg.ulTaskname => (readCString s.ulTaskname).map Value.str
  | Arg.ulTaskDDL => some (Value.num s.ulTaskDDL)

/-- Array index an argument expression reads, if it is an array read. -/
def Arg.arrayIndex : Arg → Option Nat
  | Arg.ulTaskNumber index => some index
  | Arg.ulTaskBeginTime index => some index
  | Arg.ulTaskname => none
  | Arg.ulTaskDDL => none

/-- A `printf` statement: format string and argument expressions. -/
structure Printf where
  format : String
  args : List Arg
deriving DecidableEq, Repr

/-- A line written to the console: format string and the values read. -/
structure Printed where
  format : String
  values : List (Option Value)
deriving DecidableEq, Repr

/-- Report block of `TaskA` (the line printing `ulTaskRunTime` is commented
out in the source). -/
def TaskA_report : List Printf :=
  [ ⟨"current task status:%ld,%ld,%ld\r\n",
      [Arg.ulTaskNumber 1, Arg.ulTaskNumber 2, Arg.ulTaskNumber 3]⟩,
    ⟨"current running task:%6s\r\n", [Arg.ulTaskname]⟩,
    ⟨"current task begintime:%u\r\n", [Arg.ulTaskBeginTime 1]⟩,
    ⟨"current task ddl:%u\r\n", [Arg.ulTaskDDL]⟩ ]

/-- Report block of `TaskB`. -/
def TaskB_report : List Printf :=
  [ ⟨"current running task:%6s\r\n", [Arg.ulTaskname]⟩,
    ⟨"current task begintime:%u\r\n", [Arg.ulTaskBeginTime 2]⟩,
    ⟨"current task ddl:%u\r\n", [Arg.ulTaskDDL]⟩ ]

/-- Report block of `TaskC`. -/
def TaskC_report : List Printf :=
  [ ⟨"current running task:%6s\r\n", [Arg.ulTaskname]⟩,
    ⟨"current task begintime:%u\r\n", [Arg.ulTaskBeginTime 3]⟩,
    ⟨"current task ddl:%u\r\n", [Arg.ulTaskDDL]⟩ ]

/-- The lines a report block prints in a given instrumentation state. -/
def reportLines (block : List Printf) (s : Instr) : List Printed :=
  block.map (fun p => ⟨p.format, p.args.map (Arg.read s)⟩)

/-- All array indices a report block reads. -/
def readIndices (block : List Printf) : List Nat :=
  (block.flatMap (fun p => p.args)).filterMap Arg.arrayIndex

/-- Every argument of every `printf` of the block has a defined value. -/
def readsInBounds (block : List Printf) (s : Instr) : Bool :=
  block.all (fun p => p.args.all (fun a => (Arg.read s a).isSome))

/-- Every indexed read (of `ulTaskNumber` or `ulTaskBeginTime`) of the block
has a defined value. -/
def indexedReadsInBounds (block : List Printf) (s : Instr) : Bool :=
  block.all (fun p => p.args.all (fun a =>
    match Arg.arrayIndex a with
    | some _ => (Arg.read s a).isSome
    | none => true))

/-- The begin-time value a report block prints: the value of its
`ulTaskBeginTime` argument. -/
def reportedBeginTime (block : List Printf) (s : Instr) : Option Value :=
  match (block.flatMap (fun p => p.args)).find?
      (fun a => match a with
        | Arg.ulTaskBeginTime _ => true
        | _ => false) with
  | some a => Arg.read s a
  | none => none

/-- Modelled from the spec: the accessor `beginTimeOf(slot)` of the execution
instrumentation, absent from the demo file: the begin time recorded for the
registry slot. -/
def beginTimeOf (s : Instr) (slot : Nat) : Option Value :=
  (s.ulTaskBeginTime[slot]?).map Value.num

/-! ## Task bodies as step machines -/

/-- What a task body can observe and affect outside its local variables. -/
structure Sys where
  /-- Value of the kernel's tick counter. -/
  tick : Nat
  instr : Instr
  /-- Lines printed so far. -/
  console : List Printed
deriving DecidableEq, Repr

/-- What the rest of the system does while one step of a task executes. -/
structure Env where
  /-- Ticks that pass during a step that is not a delay. -/
  elapsed : Nat
  /-- Instrumentation the scheduler has written by the time a delay returns. -/
  instr : Instr
deriving DecidableEq, Repr

/-- Time passing during a step of a task's own code. -/
def Sys.pass (e : Env) (s : Sys) : Sys :=
  { s with tick := (s.tick + e.elapsed) % tickModulus }

/-- The report block's `printf` calls, appended to the console. -/
def Sys.print (block : List Printf) (s : Sys) : Sys :=
  { s with console := s.console ++ reportLines block s.instr }

/-- Modelled from the spec: `xTaskGetTickCount` of the kernel. -/
def xTaskGetTickCount (s : Sys) : Nat := s.tick

/-- Modelled from the spec: the periodic-delay primitive `vTaskDelayUntil(&w, p)`
of the kernel: `w := (w + p) mod 2^32`, the task resumes at tick `w`, and the
scheduler has meanwhile rewritten the instrumentation. -/
def vTaskDelayUntil (e : Env) (pxPreviousWakeTime xTimeIncrement : Nat) (s : Sys) :
    Nat × Sys :=
  let w := (pxPreviousWakeTime + xTimeIncrement) % tickModulus
  (w, { s with tick := w, instr := e.instr })

/-- Program points of `TaskA`. -/
inductive PcA where
  | entry
  | delay
  | forInit
  | forTest
  | forBody
  | report
deriving DecidableEq, Repr

/-- Local variables of `TaskA`. -/
structure TaskAState where
  pc : PcA
  xNextWakeTime : Nat
  workload : Float
  i : Int

/-- One step of `TaskA`.  `xBlockTime` is the constant `mainTASK_A_FREQUENCY_MS`. -/
def TaskA (cfg : Config) (e : Env) (st : Sys × TaskAState) : Sys × TaskAState :=
  let s := st.1
  let l := st.2
  match l.pc with
  | PcA.entry =>
    (s.pass e, { l with pc := PcA.delay, xNextWakeTime := xTaskGetTickCount s, workload := 2.0 })
  | PcA.delay =>
    let r := vTaskDelayUntil e l.xNextWakeTime (mainTASK_A_FREQUENCY_MS cfg) s
    (r.2, { l with pc := PcA.forInit, xNextWakeTime := r.1 })
  | PcA.forInit => (s.pass e, { l with pc := PcA.forTest, i := 0 })
  | PcA.forTest =>
    (s.pass e, { l with pc := if l.i < 99999 then PcA.forBody else PcA.report })
  | PcA.forBody =>
    let w1 := (l.workload + 1.0) / Float.ofInt l.i
    let w2 := (w1 + 2.0) / Float.ofInt l.i
    let w3 := (w2 + 3.0) / Float.ofInt l.i
    (s.pass e, { l with pc := PcA.forTest, workload := w3, i := l.i + 1 })
  | PcA.report => ((s.print TaskA_report).pass e, { l with pc := PcA.delay })

/-- Program points of `TaskB`. -/
inductive PcB where
  | entry
  | delay
  | report
deriving DecidableEq, Repr

/-- Local variables of `TaskB`. -/
structure TaskBState where
  pc : PcB
  xNextWakeTime : Nat
deriving DecidableEq, Repr

/-- One step of `TaskB`.  `xBlockTime` is the constant `mainTASK_B_FREQUENCY_MS`. -/
def TaskB (cfg : Config) (e : Env) (st : Sys × TaskBState) : Sys × TaskBState :=
  let s := st.1
  let l := st.2
  match l.pc with
  | PcB.entry => (s.pass e, { l with pc := PcB.delay, xNextWakeTime := xTaskGetTickCount s })
  | PcB.delay =>
    let r := vTaskDelayUntil e l.xNextWakeTime (mainTASK_B_FREQUENCY_MS cfg) s
    (r.2, { l with pc := PcB.report, xNextWakeTime := r.1 })
  | PcB.report => ((s.print TaskB_report).pass e, { l with pc := PcB.delay })

/-- Program points of `TaskC`. -/
inductive PcC where
  | entry
  | firstDelay
  | delay
  | report
deriving DecidableEq, Repr

/-- Local variables of `TaskC`. -/
structure TaskCState where
  pc : PcC
  xNextWakeTime : Nat
deriving DecidableEq, Repr

/-- One step of `TaskC`.  `xBlockTime` is the constant `mainTASK_A_FREQUENCY_MS`
(the source uses the period of task A); the first delay is the literal 1000. -/
def TaskC (cfg : Config) (e : Env) (st : Sys × TaskCState) : Sys × TaskCState :=
  let s := st.1
  let l := st.2
  match l.pc with
  | PcC.entry => (s.pass e, { l with pc := PcC.firstDelay, xNextWakeTime := xTaskGetTickCount s })
  | PcC.firstDelay =>
    let r := vTaskDelayUntil e l.xNextWakeTime 1000 s
    (r.2, { l with pc := PcC.delay, xNextWakeTime := r.1 })
  | PcC.delay =>
    let r := vTaskDelayUntil e l.xNextWakeTime (mainTASK_A_FREQUENCY_MS cfg) s
    (r.2, { l with pc := PcC.report, xNextWakeTime := r.1 })
  | PcC.report => ((s.print TaskC_report).pass e, { l with pc := PcC.delay })

/-- State after `n` steps of a step machine, the environment of step `k` being
`env k`. -/
def run {σ : Type} (step : Env → σ → σ) (env : Nat → Env) : Nat → σ → σ
  | 0, st => st
  | n + 1, st => step (env n) (run step env n st)

/-- Number of steps of `TaskA` from one return of `vTaskDelayUntil` to the
next: `forInit`, 99999 times test and body, the failing test, the report and
the delay. -/
def TaskA_cycle : Nat := 1 + 2 * 99999 + 1 + 1 + 1

/-- Instrumentation state with four array elements, used to evaluate report
blocks on concrete data; the task name is "TA" followed by NULs. -/
def sampleInstr : Instr :=
  { ulTaskname := 'T' :: 'A' :: List.replicate 18 (Char.ofNat 0)
    ulTaskRunTimeLast := 0
    ulTaskNumber := [0, 1, 2, 3]
    ulTaskBeginTime := [100, 200, 300, 400]
    ulTaskRunTime := [0, 0, 0, 0]
    ulTaskDDL := 1010 }

/-- The sample instrumentation state with a task name of 20 letters and no
NUL. -/
def unterminatedNameInstr : Instr :=
  { sampleInstr with ulTaskname := List.replicate 20 'T' }

/-- Report block of the task an entry function implements. -/
def reportOf : TaskCode → List Printf
  | TaskCode.TaskA => TaskA_report
  | TaskCode.TaskB => TaskB_report
  | TaskCode.TaskC => TaskC_report

/-- Three ready tasks, listed out of creation order: B and A share the
absolute deadline 10, C has 2000. -/
def sampleReady : List TaskDescriptor :=
  [ ⟨TaskCode.TaskB, "TB", 10, 10, 1⟩, ⟨TaskCode.TaskC, "TC", 1000, 2000, 2⟩,
    ⟨TaskCode.TaskA, "TA", 10, 10, 0⟩ ]

/-- Allocation outcomes in which only the first creation call runs out of
memory. -/
def firstAllocFails : Fin 3 → Bool := fun i => decide (i ≠ 0)

/-- Allocation outcomes in which every allocation succeeds. -/
def allAllocOk : Fin 3 → Bool := fun _ => true

/-- Configuration with a 1 ms tick and four instrumentation slots. -/
def sampleCfg : Config := { configTICK_RATE_HZ := 1000, configEXPECTED_EDF_TASKS := 4 }

/-- System state at tick 0 with an empty console. -/
def sampleSys : Sys := { tick := 0, instr := sampleInstr, console := [] }

/-- Environment in which every step of a task's own code takes 7 ticks. -/
def sampleEnv : Nat → Env := fun _ => { elapsed := 7, instr := sampleInstr }

/-- `TaskA` at its first statement. -/
def TaskA_entry : TaskAState := { pc := PcA.entry, xNextWakeTime := 0, workload := 0.0, i := 0 }

/-- `TaskA` at the initialisation of its work loop. -/
def TaskA_forInit : TaskAState :=
  { pc := PcA.forInit, xNextWakeTime := 500, workload := 2.0, i := 0 }

/-- `TaskA` at its report block. -/
def TaskA_atReport : TaskAState :=
  { pc := PcA.report, xNextWakeTime := 500, workload := 2.0, i := 99999 }

/-- `TaskB` at its first statement. -/
def TaskB_entry : TaskBState := { pc := PcB.entry, xNextWakeTime := 0 }

/-- `TaskB` at its report block. -/
def TaskB_atReport : TaskBState := { pc := PcB.report, xNextWakeTime := 5000 }

/-- `TaskC` at its first statement. -/
def TaskC_entry : TaskCState := { pc := PcC.entry, xNextWakeTime := 0 }

/-- `TaskC` at its report block. -/
def TaskC_atReport : TaskCState := { pc := PcC.report, xNextWakeTime := 1500 }

/-! ## Lemmas on the scheduler model -/

theorem precedes_iff (a b : TaskDescriptor) :
    precedes a b = true ↔
      a.absoluteDeadline < b.absoluteDeadline ∨
        (a.absoluteDeadline = b.absoluteDeadline ∧ a.sequenceNumber ≤ b.sequenceNumber) := by
  simp [precedes]

theorem selectNext_eq_none (ready : List TaskDescriptor) (h : selectNext ready = none) :
    ready = [] := by
  cases ready with
  | nil => rfl
  | cons d rest =>
    simp only [selectNext] at h
    split at h
    · cases h
    · split at h <;> cases h

theorem selectNext_sound :
    ∀ (ready : List TaskDescriptor) (t : TaskDescriptor), selectNext ready = some t →
      t ∈ ready ∧ ∀ u ∈ ready,
        t.absoluteDeadline < u.absoluteDeadline ∨
          (t.absoluteDeadline = u.absoluteDeadline ∧ t.sequenceNumber ≤ u.sequenceNumber) := by
  intro ready
  induction ready with
  | nil => intro t h; simp [selectNext] at h
  | cons d rest ih =>
    intro t h
    simp only [selectNext] at h
    cases hr : selectNext rest with
    | none =>
      rw [hr] at h
      have hnil := selectNext_eq_none rest hr
      subst hnil
      simp only [Option.some.injEq] at h
      subst h
      simp
    | some best =>
      rw [hr] at h
      obtain ⟨hmem, hmin⟩ := ih best hr
      by_cases hp : precedes d best = true
      · dsimp only at h
        rw [if_pos hp] at h
        simp only [Option.some.injEq] at h
        subst h
        refine ⟨List.mem_cons_self _ _, ?_⟩
        intro u hu
        rcases List.mem_cons.mp hu with rfl | hu
        · right; exact ⟨rfl, le_refl _⟩
        · have h1 := (precedes_iff _ best).mp hp
          have h2 := hmin u hu
          omega
      · have hp2 : ¬ (d.absoluteDeadline < best.absoluteDeadline ∨
            (d.absoluteDeadline = best.absoluteDeadline ∧
              d.sequenceNumber ≤ best.sequenceNumber)) :=
          fun hc => hp ((precedes_iff d best).mpr hc)
        dsimp only at h
        rw [if_neg hp] at h
        simp only [Option.some.injEq] at h
        subst h
        refine ⟨List.mem_cons_of_mem _ hmem, ?_⟩
        intro u hu
        rcases List.mem_cons.mp hu with rfl | hu
        · omega
        · exact hmin u hu

/-! ## Lemmas on `main_hw2` -/

theorem xTaskDeadlineCreate_schedulerStarts (capacity : Nat) (allocOk : Bool)
    (code : TaskCode) (pcName : String) (ddl : Nat) (k : Kernel) :
    (xTaskDeadlineCreate capacity allocOk code pcName ddl k).2.schedulerStarts =
      k.schedulerStarts := by
  unfold xTaskDeadlineCreate
  split_ifs <;> rfl

theorem xTaskDeadlineCreate_calls (capacity : Nat) (allocOk : Bool)
    (code : TaskCode) (pcName : String) (ddl : Nat) (k : Kernel) :
    ∃ r, (xTaskDeadlineCreate capacity allocOk code pcName ddl k).2.createCalls =
      k.createCalls ++ [⟨code, pcName, ddl, r⟩] ∧ (ddl ≠ 0 → r ≠ CreateResult.ConfigurationError) := by
  unfold xTaskDeadlineCreate
  split_ifs with h1 h2 h3
  · exact ⟨_, rfl, fun h => absurd h1 h⟩
  · exact ⟨_, rfl, fun _ => by decide⟩
  · exact ⟨_, rfl, fun _ => by decide⟩
  · exact ⟨_, rfl, fun _ => by decide⟩

theorem xTaskDeadlineCreate_events (capacity : Nat) (allocOk : Bool)
    (code : TaskCode) (pcName : String) (ddl : Nat) (k : Kernel) :
    ∃ r, (xTaskDeadlineCreate capacity allocOk code pcName ddl k).2.events =
        k.events ++ [KernelEvent.create ⟨code, pcName, ddl, r⟩] ∧
      (xTaskDeadlineCreate capacity allocOk code pcName ddl k).2.createCalls =
        k.createCalls ++ [⟨code, pcName, ddl, r⟩] := by
  unfold xTaskDeadlineCreate
  split_ifs with h1 h2 h3
  · exact ⟨_, rfl, rfl⟩
  · exact ⟨_, rfl, rfl⟩
  · exact ⟨_, rfl, rfl⟩
  · exact ⟨_, rfl, rfl⟩

theorem xTaskDeadlineCreate_registry_ddl (capacity : Nat) (allocOk : Bool)
    (code : TaskCode) (pcName : String) (ddl : Nat) (k : Kernel) (hddl : 0 < ddl)
    (hk : ∀ d ∈ k.registry, 0 < d.relativeDeadline) :
    ∀ d ∈ (xTaskDeadlineCreate capacity allocOk code pcName ddl k).2.registry,
      0 < d.relativeDeadline := by
  unfold xTaskDeadlineCreate
  split_ifs with h1 h2 h3
  · exact hk
  · exact hk
  · exact hk
  · intro d hd
    rcases List.mem_append.mp hd with hd | hd
    · exact hk d hd
    · simp only [List.mem_singleton] at hd
      subst hd
      exact hddl

theorem main_hw2_registry (capacity : Nat) (allocOk : Fin 3 → Bool)
    (hcap : 3 ≤ capacity) (halloc : ∀ i, allocOk i = true) :
    (main_hw2 capacity allocOk Kernel.initial).registry =
      [ ⟨TaskCode.TaskA, "TA", 10, 0, 0⟩, ⟨TaskCode.TaskB, "TB", 10, 0, 1⟩,
        ⟨TaskCode.TaskC, "TC", 1000, 0, 2⟩ ] := by
  have h0 : ¬ capacity ≤ 0 := by omega
  have h1 : ¬ capacity ≤ 1 := by omega
  have h2 : ¬ capacity ≤ 2 := by omega
  simp [main_hw2, xTaskDeadlineCreate, vTaskStartScheduler, Kernel.initial, halloc,
    A_DDL, B_DDL, C_DDL, h0, h1, h2]

theorem main_hw2_createCalls (capacity : Nat) (allocOk : Fin 3 → Bool) (k : Kernel) :
    ∃ r1 r2 r3, (main_hw2 capacity allocOk k).createCalls =
      k.createCalls ++ [ ⟨TaskCode.TaskA, "TA", A_DDL, r1⟩, ⟨TaskCode.TaskB, "TB", B_DDL, r2⟩,
        ⟨TaskCode.TaskC, "TC", C_DDL, r3⟩ ] ∧
      r1 ≠ CreateResult.ConfigurationError ∧ r2 ≠ CreateResult.ConfigurationError ∧
      r3 ≠ CreateResult.ConfigurationError := by
  obtain ⟨r1, h1, n1⟩ :=
    xTaskDeadlineCreate_calls capacity (allocOk 0) TaskCode.TaskA "TA" A_DDL k
  obtain ⟨r2, h2, n2⟩ :=
    xTaskDeadlineCreate_calls capacity (allocOk 1) TaskCode.TaskB "TB" B_DDL
      (xTaskDeadlineCreate capacity (allocOk 0) TaskCode.TaskA "TA" A_DDL k).2
  obtain ⟨r3, h3, n3⟩ :=
    xTaskDeadlineCreate_calls capacity (allocOk 2) TaskCode.TaskC "TC" C_DDL
      (xTaskDeadlineCreate capacity (allocOk 1) TaskCode.TaskB "TB" B_DDL
        (xTaskDeadlineCreate capacity (allocOk 0) TaskCode.TaskA "TA" A_DDL k).2).2
  refine ⟨r1, r2, r3, ?_, n1 (by decide), n2 (by decide), n3 (by decide)⟩
  simp only [main_hw2, vTaskStartScheduler]
  rw [h3, h2, h1]
  simp

theorem main_hw2_success (capacity : Nat) (allocOk : Fin 3 → Bool)
    (hcap : 3 ≤ capacity) (halloc : ∀ i, allocOk i = true) :
    (main_hw2 capacity allocOk Kernel.initial).createCalls =
      [ ⟨TaskCode.TaskA, "TA", 10, CreateResult.pdPASS⟩,
        ⟨TaskCode.TaskB, "TB", 10, CreateResult.pdPASS⟩,
        ⟨TaskCode.TaskC, "TC", 1000, CreateResult.pdPASS⟩ ] := by
  have h0 : ¬ capacity ≤ 0 := by omega
  have h1 : ¬ capacity ≤ 1 := by omega
  have h2 : ¬ capacity ≤ 2 := by omega
  simp [main_hw2, xTaskDeadlineCreate, vTaskStartScheduler, Kernel.initial, halloc,
    A_DDL, B_DDL, C_DDL, h0, h1, h2]

/-! ## Scheduler selection -/

/-- C1: for every non-empty set of ready deadline tasks, the scheduler's
selection returns a ready task whose absolute deadline is minimal among the
ready tasks, and whose sequence number is the lowest among the ready tasks
with that same absolute deadline. -/
theorem selectNext_earliest_deadline (ready : List TaskDescriptor) (h : ready ≠ []) :
    ∃ t, selectNext ready = some t ∧ t ∈ ready ∧
      (∀ u ∈ ready, t.absoluteDeadline ≤ u.absoluteDeadline) ∧
      (∀ u ∈ ready, u.absoluteDeadline = t.absoluteDeadline →
        t.sequenceNumber ≤ u.sequenceNumber) := by
  cases hs : selectNext ready with
  | none => exact absurd (selectNext_eq_none ready hs) h
  | some t =>
    obtain ⟨hmem, hmin⟩ := selectNext_sound ready t hs
    refine ⟨t, rfl, hmem, ?_, ?_⟩
    · intro u hu
      have := hmin u hu
      omega
    · intro u hu heq
      have := hmin u hu
      omega

/-- Instance of C1 on three ready tasks of which two tie on the deadline. -/
theorem selectNext_earliest_deadline_witness :
    sampleReady ≠ [] ∧
    ∃ t, selectNext sampleReady = some t ∧ t ∈ sampleReady ∧
      (∀ u ∈ sampleReady, t.absoluteDeadline ≤ u.absoluteDeadline) ∧
      (∀ u ∈ sampleReady, u.absoluteDeadline = t.absoluteDeadline →
        t.sequenceNumber ≤ u.sequenceNumber) :=
  ⟨by simp [sampleReady], selectNext_earliest_deadline sampleReady (by simp [sampleReady])⟩

/-- C2: `main_hw2` issues exactly three creation calls, for A, B, C in this
order with relative deadlines 10, 10 and 1000; when all three succeed the
registry holds A, B, C with sequence numbers 0, 1, 2, and for every tick `t` at
which A and B are activated (C not ready) their absolute deadlines are equal,
namely `t + 10` in tick arithmetic, and the selection picks A, whatever the
order of the ready set. -/
theorem main_hw2_tie_selects_A (capacity : Nat) (allocOk : Fin 3 → Bool)
    (hcap : 3 ≤ capacity) (halloc : ∀ i, allocOk i = true) (t : Nat) :
    (main_hw2 capacity allocOk Kernel.initial).createCalls.map
        (fun c => (c.pxTaskCode, c.relativeDeadline, c.result)) =
      [ (TaskCode.TaskA, 10, CreateResult.pdPASS), (TaskCode.TaskB, 10, CreateResult.pdPASS),
        (TaskCode.TaskC, 1000, CreateResult.pdPASS) ] ∧
    (main_hw2 capacity allocOk Kernel.initial).registry.length = 3 ∧
    ∃ a b, (main_hw2 capacity allocOk Kernel.initial).registry[0]? = some a ∧
      (main_hw2 capacity allocOk Kernel.initial).registry[1]? = some b ∧
      a.entryFunction = TaskCode.TaskA ∧ b.entryFunction = TaskCode.TaskB ∧
      a.sequenceNumber = 0 ∧ b.sequenceNumber = 1 ∧
      (activate a t).absoluteDeadline = (activate b t).absoluteDeadline ∧
      (activate a t).absoluteDeadline = (t + 10) % 2 ^ 32 ∧
      (t + 10 < 2 ^ 32 → (activate a t).absoluteDeadline = t + 10) ∧
      selectNext [activate a t, activate b t] = some (activate a t) ∧
      selectNext [activate b t, activate a t] = some (activate a t) := by
  rw [main_hw2_success capacity allocOk hcap halloc,
    main_hw2_registry capacity allocOk hcap halloc]
  refine ⟨rfl, rfl, _, _, rfl, rfl, rfl, rfl, rfl, rfl, rfl, rfl, ?_, ?_, ?_⟩
  · intro ht
    show (t + 10) % 2 ^ 32 = t + 10
    exact Nat.mod_eq_of_lt ht
  · simp [selectNext, precedes, activate]
  · simp [selectNext, precedes, activate]

/-- Instance of C2 at tick 0 with a registry of capacity 3. -/
theorem main_hw2_tie_selects_A_witness :
    3 ≤ 3 ∧ (∀ i, allAllocOk i = true) ∧
    ∃ a b, (main_hw2 3 allAllocOk Kernel.initial).registry[0]? = some a ∧
      (main_hw2 3 allAllocOk Kernel.initial).registry[1]? = some b ∧
      a.entryFunction = TaskCode.TaskA ∧ b.entryFunction = TaskCode.TaskB ∧
      a.sequenceNumber = 0 ∧ b.sequenceNumber = 1 ∧
      (activate a 0).absoluteDeadline = (activate b 0).absoluteDeadline ∧
      (activate a 0).absoluteDeadline = (0 + 10) % 2 ^ 32 ∧
      (0 + 10 < 2 ^ 32 → (activate a 0).absoluteDeadline = 0 + 10) ∧
      selectNext [activate a 0, activate b 0] = some (activate a 0) ∧
      selectNext [activate b 0, activate a 0] = some (activate a 0) :=
  ⟨le_refl 3, fun _ => rfl,
    (main_hw2_tie_selects_A 3 allAllocOk (le_refl 3) (fun _ => rfl) 0).2.2⟩

/-- C3: when all three creations succeed, for every tick `t` with
`t + 1000 < 2 ^ 32` at which A and C are activated, the absolute deadline of A
is `t + 10`, that of C is `t + 1000`, the former is strictly smaller, and the
selection places A before C; at `t = 1000` the deadlines are 1010 and 2000. -/
theorem main_hw2_A_before_C (capacity : Nat) (allocOk : Fin 3 → Bool)
    (hcap : 3 ≤ capacity) (halloc : ∀ i, allocOk i = true) (t : Nat)
    (ht : t + 1000 < 2 ^ 32) :
    ∃ a c, (main_hw2 capacity allocOk Kernel.initial).registry[0]? = some a ∧
      (main_hw2 capacity allocOk Kernel.initial).registry[2]? = some c ∧
      a.entryFunction = TaskCode.TaskA ∧ c.entryFunction = TaskCode.TaskC ∧
      a.relativeDeadline = A_DDL ∧ c.relativeDeadline = C_DDL ∧
      (activate a t).absoluteDeadline = t + 10 ∧
      (activate c t).absoluteDeadline = t + 1000 ∧
      (activate a t).absoluteDeadline < (activate c t).absoluteDeadline ∧
      selectNext [activate a t, activate c t] = some (activate a t) ∧
      selectNext [activate c t, activate a t] = some (activate a t) ∧
      (activate a 1000).absoluteDeadline = 1010 ∧
      (activate c 1000).absoluteDeadline = 2000 := by
  rw [main_hw2_registry capacity allocOk hcap halloc]
  have ha : (t + 10) % 2 ^ 32 = t + 10 := Nat.mod_eq_of_lt (by omega)
  have hc : (t + 1000) % 2 ^ 32 = t + 1000 := Nat.mod_eq_of_lt ht
  refine ⟨_, _, rfl, rfl, rfl, rfl, rfl, rfl, ha, hc, ?_, ?_, ?_, by decide, by decide⟩
  · show (t + 10) % 2 ^ 32 < (t + 1000) % 2 ^ 32
    rw [ha, hc]; omega
  · have ha2 : (t + 10) % 4294967296 = t + 10 := Nat.mod_eq_of_lt (by omega)
    have hc2 : (t + 1000) % 4294967296 = t + 1000 := Nat.mod_eq_of_lt (by omega)
    simp [selectNext, precedes, activate, tickModulus, ha2, hc2]
  · have ha2 : (t + 10) % 4294967296 = t + 10 := Nat.mod_eq_of_lt (by omega)
    have hc2 : (t + 1000) % 4294967296 = t + 1000 := Nat.mod_eq_of_lt (by omega)
    simp [selectNext, precedes, activate, tickModulus, ha2, hc2]

/-- Instance of C3 at tick 1000 with a registry of capacity 3. -/
theorem main_hw2_A_before_C_witness :
    3 ≤ 3 ∧ (∀ i, allAllocOk i = true) ∧ 1000 + 1000 < 2 ^ 32 ∧
    ∃ a c, (main_hw2 3 allAllocOk Kernel.initial).registry[0]? = some a ∧
      (main_hw2 3 allAllocOk Kernel.initial).registry[2]? = some c ∧
      a.entryFunction = TaskCode.TaskA ∧ c.entryFunction = TaskCode.TaskC ∧
      a.relativeDeadline = A_DDL ∧ c.relativeDeadline = C_DDL ∧
      (activate a 1000).absoluteDeadline = 1000 + 10 ∧
      (activate c 1000).absoluteDeadline = 1000 + 1000 ∧
      (activate a 1000).absoluteDeadline < (activate c 1000).absoluteDeadline ∧
      selectNext [activate a 1000, activate c 1000] = some (activate a 1000) ∧
      selectNext [activate c 1000, activate a 1000] = some (activate a 1000) ∧
      (activate a 1000).absoluteDeadline = 1010 ∧
      (activate c 1000).absoluteDeadline = 2000 :=
  ⟨le_refl 3, fun _ => rfl, by norm_num,
    main_hw2_A_before_C 3 allAllocOk (le_refl 3) (fun _ => rfl) 1000 (by norm_num)⟩

/-! ## Start-up -/

/-- C4, the claim fails: with a registry of capacity 3 and the first creation
running out of memory, a creation has failed and `main_hw2` has nevertheless
called `vTaskStartScheduler`; the same happens with capacity 2, where the third
creation fails with `CapacityExceeded`. -/
theorem main_hw2_starts_after_failed_creation :
    (main_hw2 3 firstAllocFails Kernel.initial).createCalls.map (fun c => c.result) =
      [CreateResult.OutOfMemory, CreateResult.pdPASS, CreateResult.pdPASS] ∧
    (main_hw2 3 firstAllocFails Kernel.initial).someCreationFailed = true ∧
    (main_hw2 3 firstAllocFails Kernel.initial).schedulerStarts = 1 ∧
    (main_hw2 2 allAllocOk Kernel.initial).createCalls.map (fun c => c.result) =
      [CreateResult.pdPASS, CreateResult.pdPASS, CreateResult.CapacityExceeded] ∧
    (main_hw2 2 allAllocOk Kernel.initial).someCreationFailed = true ∧
    (main_hw2 2 allAllocOk Kernel.initial).schedulerStarts = 1 := by
  refine ⟨?_, ?_, ?_, ?_, ?_, ?_⟩ <;>
    simp [main_hw2, xTaskDeadlineCreate, vTaskStartScheduler, Kernel.initial,
      Kernel.someCreationFailed, firstAllocFails, allAllocOk, A_DDL, B_DDL, C_DDL]

/-- C4, amended: for every registry capacity, every combination of allocation
outcomes and every kernel state, the calls `main_hw2` makes are, in this
order, the creation of A, of B and of C, whatever their results, and then
`vTaskStartScheduler`, exactly once, whether or not a creation failed. -/
theorem main_hw2_always_starts_scheduler (capacity : Nat) (allocOk : Fin 3 → Bool)
    (k : Kernel) :
    (∃ r1 r2 r3,
      (main_hw2 capacity allocOk k).events =
        k.events ++ [ KernelEvent.create ⟨TaskCode.TaskA, "TA", A_DDL, r1⟩,
          KernelEvent.create ⟨TaskCode.TaskB, "TB", B_DDL, r2⟩,
          KernelEvent.create ⟨TaskCode.TaskC, "TC", C_DDL, r3⟩,
          KernelEvent.startScheduler ] ∧
      (main_hw2 capacity allocOk k).createCalls =
        k.createCalls ++ [ ⟨TaskCode.TaskA, "TA", A_DDL, r1⟩, ⟨TaskCode.TaskB, "TB", B_DDL, r2⟩,
          ⟨TaskCode.TaskC, "TC", C_DDL, r3⟩ ]) ∧
    (main_hw2 capacity allocOk k).schedulerStarts = k.schedulerStarts + 1 ∧
    (main_hw2 capacity allocOk k).createCalls.length = k.createCalls.length + 3 := by
  refine ⟨?_, ?_, ?_⟩
  · obtain ⟨r1, h1, g1⟩ :=
      xTaskDeadlineCreate_events capacity (allocOk 0) TaskCode.TaskA "TA" A_DDL k
    obtain ⟨r2, h2, g2⟩ :=
      xTaskDeadlineCreate_events capacity (allocOk 1) TaskCode.TaskB "TB" B_DDL
        (xTaskDeadlineCreate capacity (allocOk 0) TaskCode.TaskA "TA" A_DDL k).2
    obtain ⟨r3, h3, g3⟩ :=
      xTaskDeadlineCreate_events capacity (allocOk 2) TaskCode.TaskC "TC" C_DDL
        (xTaskDeadlineCreate capacity (allocOk 1) TaskCode.TaskB "TB" B_DDL
          (xTaskDeadlineCreate capacity (allocOk 0) TaskCode.TaskA "TA" A_DDL k).2).2
    refine ⟨r1, r2, r3, ?_, ?_⟩
    · simp only [main_hw2, vTaskStartScheduler]
      rw [h3, h2, h1]
      simp
    · simp only [main_hw2, vTaskStartScheduler]
      rw [g3, g2, g1]
      simp
  · simp only [main_hw2, vTaskStartScheduler, xTaskDeadlineCreate_schedulerStarts]
  · obtain ⟨r1, r2, r3, h, -⟩ := main_hw2_createCalls capacity allocOk k
    rw [h]
    simp

/-- C5: the relative deadlines `A_DDL`, `B_DDL`, `C_DDL` are strictly positive,
they are the deadline arguments of the three creation calls of `main_hw2`, no
creation call is answered with a configuration error, and every descriptor
registered has a strictly positive relative deadline. -/
theorem main_hw2_relativeDeadline_pos (capacity : Nat) (allocOk : Fin 3 → Bool) :
    0 < A_DDL ∧ 0 < B_DDL ∧ 0 < C_DDL ∧
    (main_hw2 capacity allocOk Kernel.initial).createCalls.map
        (fun c => (c.pxTaskCode, c.relativeDeadline)) =
      [(TaskCode.TaskA, A_DDL), (TaskCode.TaskB, B_DDL), (TaskCode.TaskC, C_DDL)] ∧
    (main_hw2 capacity allocOk Kernel.initial).createCalls.all
        (fun c => decide (0 < c.relativeDeadline ∧
          c.result ≠ CreateResult.ConfigurationError)) = true ∧
    (main_hw2 capacity allocOk Kernel.initial).registry.all
        (fun d => decide (0 < d.relativeDeadline)) = true := by
  obtain ⟨r1, r2, r3, h, n1, n2, n3⟩ := main_hw2_createCalls capacity allocOk Kernel.initial
  refine ⟨by decide, by decide, by decide, ?_, ?_, ?_⟩
  · rw [h]; simp [Kernel.initial]
  · rw [h]; simp [Kernel.initial, A_DDL, B_DDL, C_DDL, n1, n2, n3]
  · have hreg : ∀ d ∈ (main_hw2 capacity allocOk Kernel.initial).registry,
        0 < d.relativeDeadline := by
      simp only [main_hw2, vTaskStartScheduler]
      apply xTaskDeadlineCreate_registry_ddl _ _ _ _ _ _ (by decide)
      apply xTaskDeadlineCreate_registry_ddl _ _ _ _ _ _ (by decide)
      apply xTaskDeadlineCreate_registry_ddl _ _ _ _ _ _ (by decide)
      intro d hd
      simp [Kernel.initial] at hd
    simpa [List.all_eq_true] using hreg

/-! ## Lemmas on the task step machines -/

theorem run_succ {σ : Type} (step : Env → σ → σ) (env : Nat → Env) (n : Nat) (st : σ) :
    run step env (n + 1) st = step (env n) (run step env n st) := rfl

theorem pdMS_TO_TICKS_500 (cfg : Config) (h : cfg.configTICK_RATE_HZ = 1000) :
    pdMS_TO_TICKS cfg 500 = 500 := by
  simp [pdMS_TO_TICKS, h, tickModulus]

theorem pdMS_TO_TICKS_5000 (cfg : Config) (h : cfg.configTICK_RATE_HZ = 1000) :
    pdMS_TO_TICKS cfg 5000 = 5000 := by
  simp [pdMS_TO_TICKS, h, tickModulus]

theorem TaskA_at_entry (cfg : Config) (e : Env) (st : Sys × TaskAState)
    (h : st.2.pc = PcA.entry) :
    (TaskA cfg e st).2.pc = PcA.delay ∧ (TaskA cfg e st).2.xNextWakeTime = st.1.tick := by
  simp [TaskA, h, xTaskGetTickCount]

theorem TaskA_at_delay (cfg : Config) (e : Env) (st : Sys × TaskAState)
    (h : st.2.pc = PcA.delay) :
    (TaskA cfg e st).2.pc = PcA.forInit ∧
    (TaskA cfg e st).2.xNextWakeTime =
      (st.2.xNextWakeTime + mainTASK_A_FREQUENCY_MS cfg) % tickModulus ∧
    (TaskA cfg e st).1.tick =
      (st.2.xNextWakeTime + mainTASK_A_FREQUENCY_MS cfg) % tickModulus := by
  simp [TaskA, h, vTaskDelayUntil]

theorem TaskA_at_forInit (cfg : Config) (e : Env) (st : Sys × TaskAState)
    (h : st.2.pc = PcA.forInit) :
    (TaskA cfg e st).2.pc = PcA.forTest ∧ (TaskA cfg e st).2.i = 0 ∧
    (TaskA cfg e st).2.xNextWakeTime = st.2.xNextWakeTime := by
  simp [TaskA, h]

theorem TaskA_at_forTest_lt (cfg : Config) (e : Env) (st : Sys × TaskAState)
    (h : st.2.pc = PcA.forTest) (hi : st.2.i < 99999) :
    (TaskA cfg e st).2.pc = PcA.forBody ∧ (TaskA cfg e st).2.i = st.2.i ∧
    (TaskA cfg e st).2.xNextWakeTime = st.2.xNextWakeTime := by
  simp [TaskA, h, hi]

theorem TaskA_at_forTest_ge (cfg : Config) (e : Env) (st : Sys × TaskAState)
    (h : st.2.pc = PcA.forTest) (hi : ¬ st.2.i < 99999) :
    (TaskA cfg e st).2.pc = PcA.report ∧ (TaskA cfg e st).2.i = st.2.i ∧
    (TaskA cfg e st).2.xNextWakeTime = st.2.xNextWakeTime := by
  simp [TaskA, h, hi]

theorem TaskA_at_forBody (cfg : Config) (e : Env) (st : Sys × TaskAState)
    (h : st.2.pc = PcA.forBody) :
    (TaskA cfg e st).2.pc = PcA.forTest ∧ (TaskA cfg e st).2.i = st.2.i + 1 ∧
    (TaskA cfg e st).2.xNextWakeTime = st.2.xNextWakeTime := by
  simp [TaskA, h]

theorem TaskA_at_report (cfg : Config) (e : Env) (st : Sys × TaskAState)
    (h : st.2.pc = PcA.report) :
    (TaskA cfg e st).2.pc = PcA.delay ∧
    (TaskA cfg e st).2.xNextWakeTime = st.2.xNextWakeTime ∧
    (TaskA cfg e st).1.console = st.1.console ++ reportLines TaskA_report st.1.instr := by
  simp [TaskA, h, Sys.pass, Sys.print]

/-- From the loop initialisation reached after `k` steps, the loop test is
reached for the `j`-th time with `i = j`, for every `j ≤ 99999`. -/
theorem TaskA_loop_test (cfg : Config) (env : Nat → Env) (st0 : Sys × TaskAState) (k : Nat)
    (h : (run (TaskA cfg) env k st0).2.pc = PcA.forInit) :
    ∀ j : Nat, j ≤ 99999 →
      (run (TaskA cfg) env (k + 1 + 2 * j) st0).2.pc = PcA.forTest ∧
      (run (TaskA cfg) env (k + 1 + 2 * j) st0).2.i = (j : Int) ∧
      (run (TaskA cfg) env (k + 1 + 2 * j) st0).2.xNextWakeTime =
        (run (TaskA cfg) env k st0).2.xNextWakeTime := by
  intro j
  induction j with
  | zero =>
    intro _
    have := TaskA_at_forInit cfg (env k) _ h
    simpa [run_succ] using this
  | succ j ih =>
    intro hj
    obtain ⟨hpc, hi, hw⟩ := ih (by omega)
    have hlt : (run (TaskA cfg) env (k + 1 + 2 * j) st0).2.i < 99999 := by
      rw [hi]; omega
    have e1 : k + 1 + 2 * (j + 1) = (k + 1 + 2 * j + 1) + 1 := by ring
    rw [e1, run_succ, run_succ]
    obtain ⟨b1, b2, b3⟩ := TaskA_at_forTest_lt cfg (env (k + 1 + 2 * j)) _ hpc hlt
    obtain ⟨c1, c2, c3⟩ := TaskA_at_forBody cfg (env (k + 1 + 2 * j + 1)) _ b1
    refine ⟨c1, ?_, ?_⟩
    · rw [c2, b2, hi]; push_cast; ring
    · rw [c3, b3, hw]

/-- The loop body is entered for the `j`-th time with `i = j`, for every
`j < 99999`. -/
theorem TaskA_loop_body (cfg : Config) (env : Nat → Env) (st0 : Sys × TaskAState) (k : Nat)
    (h : (run (TaskA cfg) env k st0).2.pc = PcA.forInit) (j : Nat) (hj : j < 99999) :
    (run (TaskA cfg) env (k + 2 + 2 * j) st0).2.pc = PcA.forBody ∧
    (run (TaskA cfg) env (k + 2 + 2 * j) st0).2.i = (j : Int) := by
  obtain ⟨hpc, hi, -⟩ := TaskA_loop_test cfg env st0 k h j (by omega)
  have hlt : (run (TaskA cfg) env (k + 1 + 2 * j) st0).2.i < 99999 := by
    rw [hi]; omega
  have e1 : k + 2 + 2 * j = (k + 1 + 2 * j) + 1 := by ring
  rw [e1, run_succ]
  obtain ⟨b1, b2, -⟩ := TaskA_at_forTest_lt cfg (env (k + 1 + 2 * j)) _ hpc hlt
  exact ⟨b1, by rw [b2, hi]⟩

/-- After the 99999 iterations the test fails, the report block runs, control
is back at the delay call, and the next delay returns one period later. -/
theorem TaskA_loop_exit (cfg : Config) (env : Nat → Env) (st0 : Sys × TaskAState) (k : Nat)
    (h : (run (TaskA cfg) env k st0).2.pc = PcA.forInit) :
    (run (TaskA cfg) env (k + 200000) st0).2.pc = PcA.report ∧
    (run (TaskA cfg) env (k + 200001) st0).2.pc = PcA.delay ∧
    (run (TaskA cfg) env (k + 200002) st0).2.pc = PcA.forInit ∧
    (run (TaskA cfg) env (k + 200002) st0).2.xNextWakeTime =
      ((run (TaskA cfg) env k st0).2.xNextWakeTime + mainTASK_A_FREQUENCY_MS cfg)
        % tickModulus ∧
    (run (TaskA cfg) env (k + 200002) st0).1.tick =
      ((run (TaskA cfg) env k st0).2.xNextWakeTime + mainTASK_A_FREQUENCY_MS cfg)
        % tickModulus := by
  obtain ⟨hpc, hi, hw⟩ := TaskA_loop_test cfg env st0 k h 99999 (le_refl _)
  have hge : ¬ (run (TaskA cfg) env (k + 1 + 2 * 99999) st0).2.i < 99999 := by
    rw [hi]; norm_num
  obtain ⟨b1, -, b3⟩ := TaskA_at_forTest_ge cfg (env (k + 1 + 2 * 99999)) _ hpc hge
  rw [← run_succ (TaskA cfg) env (k + 1 + 2 * 99999) st0] at b1 b3
  obtain ⟨c1, c2, -⟩ := TaskA_at_report cfg (env (k + 1 + 2 * 99999 + 1)) _ b1
  rw [← run_succ (TaskA cfg) env (k + 1 + 2 * 99999 + 1) st0] at c1 c2
  obtain ⟨d1, d2, d3⟩ := TaskA_at_delay cfg (env (k + 1 + 2 * 99999 + 1 + 1)) _ c1
  rw [← run_succ (TaskA cfg) env (k + 1 + 2 * 99999 + 1 + 1) st0] at d1 d2 d3
  have e0 : k + 200000 = k + 1 + 2 * 99999 + 1 := by ring
  have e1 : k + 200001 = k + 1 + 2 * 99999 + 1 + 1 := by ring
  have e2 : k + 200002 = k + 1 + 2 * 99999 + 1 + 1 + 1 := by ring
  rw [e0, e1, e2]
  refine ⟨b1, c1, d1, ?_, ?_⟩
  · rw [d2, c2, b3, hw]
  · rw [d3, c2, b3, hw]

theorem mod_add_period (t p n : Nat) :
    ((t + p * n) % tickModulus + p) % tickModulus = (t + p * (n + 1)) % tickModulus := by
  rw [Nat.mod_add_mod]
  congr 1
  ring

/-- Wake ticks of `TaskA`: the delay call returns for the `m + 1`-th time after
`2 + m * 200002` steps, at tick `t0 + p * (m + 1)`. -/
theorem TaskA_wake (cfg : Config) (env : Nat → Env) (s : Sys) (a : TaskAState)
    (ha : a.pc = PcA.entry) (m : Nat) :
    (run (TaskA cfg) env (2 + m * TaskA_cycle) (s, a)).2.pc = PcA.forInit ∧
    (run (TaskA cfg) env (2 + m * TaskA_cycle) (s, a)).2.xNextWakeTime =
      (s.tick + mainTASK_A_FREQUENCY_MS cfg * (m + 1)) % tickModulus ∧
    (run (TaskA cfg) env (2 + m * TaskA_cycle) (s, a)).1.tick =
      (s.tick + mainTASK_A_FREQUENCY_MS cfg * (m + 1)) % tickModulus := by
  induction m with
  | zero =>
    obtain ⟨b1, b2⟩ := TaskA_at_entry cfg (env 0) (s, a) ha
    obtain ⟨c1, c2, c3⟩ := TaskA_at_delay cfg (env 1) _ b1
    rw [b2] at c2 c3
    simpa [run_succ, run] using And.intro c1 (And.intro c2 c3)
  | succ m ih =>
    obtain ⟨h1, h2, h3⟩ := ih
    obtain ⟨-, -, d1, d2, d3⟩ := TaskA_loop_exit cfg env (s, a) (2 + m * TaskA_cycle) h1
    have e : 2 + (m + 1) * TaskA_cycle = 2 + m * TaskA_cycle + 200002 := by
      simp only [TaskA_cycle]; ring
    rw [e]
    refine ⟨d1, ?_, ?_⟩
    · rw [d2, h2, mod_add_period]
    · rw [d3, h2, mod_add_period]

theorem TaskB_at_entry (cfg : Config) (e : Env) (st : Sys × TaskBState)
    (h : st.2.pc = PcB.entry) :
    (TaskB cfg e st).2.pc = PcB.delay ∧ (TaskB cfg e st).2.xNextWakeTime = st.1.tick := by
  simp [TaskB, h, xTaskGetTickCount]

theorem TaskB_at_delay (cfg : Config) (e : Env) (st : Sys × TaskBState)
    (h : st.2.pc = PcB.delay) :
    (TaskB cfg e st).2.pc = PcB.report ∧
    (TaskB cfg e st).2.xNextWakeTime =
      (st.2.xNextWakeTime + mainTASK_B_FREQUENCY_MS cfg) % tickModulus ∧
    (TaskB cfg e st).1.tick =
      (st.2.xNextWakeTime + mainTASK_B_FREQUENCY_MS cfg) % tickModulus := by
  simp [TaskB, h, vTaskDelayUntil]

theorem TaskB_at_report (cfg : Config) (e : Env) (st : Sys × TaskBState)
    (h : st.2.pc = PcB.report) :
    (TaskB cfg e st).2.pc = PcB.delay ∧
    (TaskB cfg e st).2.xNextWakeTime = st.2.xNextWakeTime := by
  simp [TaskB, h]

/-- Wake ticks of `TaskB`: the delay call returns for the `m + 1`-th time after
`2 + 2 * m` steps, at tick `t0 + p * (m + 1)`. -/
theorem TaskB_wake (cfg : Config) (env : Nat → Env) (s : Sys) (b : TaskBState)
    (hb : b.pc = PcB.entry) (m : Nat) :
    (run (TaskB cfg) env (2 + 2 * m) (s, b)).2.pc = PcB.report ∧
    (run (TaskB cfg) env (2 + 2 * m) (s, b)).2.xNextWakeTime =
      (s.tick + mainTASK_B_FREQUENCY_MS cfg * (m + 1)) % tickModulus ∧
    (run (TaskB cfg) env (2 + 2 * m) (s, b)).1.tick =
      (s.tick + mainTASK_B_FREQUENCY_MS cfg * (m + 1)) % tickModulus := by
  induction m with
  | zero =>
    obtain ⟨b1, b2⟩ := TaskB_at_entry cfg (env 0) (s, b) hb
    obtain ⟨c1, c2, c3⟩ := TaskB_at_delay cfg (env 1) _ b1
    rw [b2] at c2 c3
    simpa [run_succ, run] using And.intro c1 (And.intro c2 c3)
  | succ m ih =>
    obtain ⟨h1, h2, h3⟩ := ih
    obtain ⟨c1, c2⟩ := TaskB_at_report cfg (env (2 + 2 * m)) _ h1
    rw [← run_succ (TaskB cfg) env (2 + 2 * m) (s, b)] at c1 c2
    obtain ⟨d1, d2, d3⟩ := TaskB_at_delay cfg (env (2 + 2 * m + 1)) _ c1
    rw [← run_succ (TaskB cfg) env (2 + 2 * m + 1) (s, b)] at d1 d2 d3
    have e : 2 + 2 * (m + 1) = 2 + 2 * m + 1 + 1 := by ring
    rw [e]
    refine ⟨d1, ?_, ?_⟩
    · rw [d2, c2, h2, mod_add_period]
    · rw [d3, c2, h2, mod_add_period]

theorem TaskC_at_entry (cfg : Config) (e : Env) (st : Sys × TaskCState)
    (h : st.2.pc = PcC.entry) :
    (TaskC cfg e st).2.pc = PcC.firstDelay ∧ (TaskC cfg e st).2.xNextWakeTime = st.1.tick := by
  simp [TaskC, h, xTaskGetTickCount]

theorem TaskC_at_firstDelay (cfg : Config) (e : Env) (st : Sys × TaskCState)
    (h : st.2.pc = PcC.firstDelay) :
    (TaskC cfg e st).2.pc = PcC.delay ∧
    (TaskC cfg e st).2.xNextWakeTime = (st.2.xNextWakeTime + 1000) % tickModulus ∧
    (TaskC cfg e st).1.tick = (st.2.xNextWakeTime + 1000) % tickModulus := by
  simp [TaskC, h, vTaskDelayUntil]

theorem TaskC_at_delay (cfg : Config) (e : Env) (st : Sys × TaskCState)
    (h : st.2.pc = PcC.delay) :
    (TaskC cfg e st).2.pc = PcC.report ∧
    (TaskC cfg e st).2.xNextWakeTime =
      (st.2.xNextWakeTime + mainTASK_A_FREQUENCY_MS cfg) % tickModulus ∧
    (TaskC cfg e st).1.tick =
      (st.2.xNextWakeTime + mainTASK_A_FREQUENCY_MS cfg) % tickModulus := by
  simp [TaskC, h, vTaskDelayUntil]

theorem TaskC_at_report (cfg : Config) (e : Env) (st : Sys × TaskCState)
    (h : st.2.pc = PcC.report) :
    (TaskC cfg e st).2.pc = PcC.delay ∧
    (TaskC cfg e st).2.xNextWakeTime = st.2.xNextWakeTime := by
  simp [TaskC, h]

/-- First activation of `TaskC`: the initial delay returns after two steps, at
tick `t0 + 1000`. -/
theorem TaskC_first (cfg : Config) (env : Nat → Env) (s : Sys) (c : TaskCState)
    (hc : c.pc = PcC.entry) :
    (run (TaskC cfg) env 2 (s, c)).2.pc = PcC.delay ∧
    (run (TaskC cfg) env 2 (s, c)).2.xNextWakeTime = (s.tick + 1000) % tickModulus ∧
    (run (TaskC cfg) env 2 (s, c)).1.tick = (s.tick + 1000) % tickModulus := by
  obtain ⟨b1, b2⟩ := TaskC_at_entry cfg (env 0) (s, c) hc
  obtain ⟨c1, c2, c3⟩ := TaskC_at_firstDelay cfg (env 1) _ b1
  rw [b2] at c2 c3
  simpa [run_succ, run] using And.intro c1 (And.intro c2 c3)

/-- Wake ticks of `TaskC`: the delay call of the loop returns for the
`m + 1`-th time after `3 + 2 * m` steps, at tick `t0 + 1000 + p * (m + 1)`. -/
theorem TaskC_wake (cfg : Config) (env : Nat → Env) (s : Sys) (c : TaskCState)
    (hc : c.pc = PcC.entry) (m : Nat) :
    (run (TaskC cfg) env (3 + 2 * m) (s, c)).2.pc = PcC.report ∧
    (run (TaskC cfg) env (3 + 2 * m) (s, c)).2.xNextWakeTime =
      (s.tick + 1000 + mainTASK_A_FREQUENCY_MS cfg * (m + 1)) % tickModulus ∧
    (run (TaskC cfg) env (3 + 2 * m) (s, c)).1.tick =
      (s.tick + 1000 + mainTASK_A_FREQUENCY_MS cfg * (m + 1)) % tickModulus := by
  induction m with
  | zero =>
    obtain ⟨f1, f2, -⟩ := TaskC_first cfg env s c hc
    obtain ⟨d1, d2, d3⟩ := TaskC_at_delay cfg (env 2) _ f1
    rw [← run_succ (TaskC cfg) env 2 (s, c)] at d1 d2 d3
    refine ⟨d1, ?_, ?_⟩
    · show (run (TaskC cfg) env (2 + 1) (s, c)).2.xNextWakeTime = _
      rw [d2, f2, Nat.mod_add_mod]; simp
    · show (run (TaskC cfg) env (2 + 1) (s, c)).1.tick = _
      rw [d3, f2, Nat.mod_add_mod]; simp
  | succ m ih =>
    obtain ⟨h1, h2, h3⟩ := ih
    obtain ⟨c1, c2⟩ := TaskC_at_report cfg (env (3 + 2 * m)) _ h1
    rw [← run_succ (TaskC cfg) env (3 + 2 * m) (s, c)] at c1 c2
    obtain ⟨d1, d2, d3⟩ := TaskC_at_delay cfg (env (3 + 2 * m + 1)) _ c1
    rw [← run_succ (TaskC cfg) env (3 + 2 * m + 1) (s, c)] at d1 d2 d3
    have e : 3 + 2 * (m + 1) = 3 + 2 * m + 1 + 1 := by ring
    rw [e]
    refine ⟨d1, ?_, ?_⟩
    · rw [d2, c2, h2, mod_add_period]
    · rw [d3, c2, h2, mod_add_period]

/-! ## Frame property of the task bodies -/

/-- C6: every step of `TaskA`, `TaskB` and `TaskC` other than a delay call
leaves the instrumentation state (`ulTaskname`, `ulTaskRunTimeLast`,
`ulTaskNumber`, `ulTaskBeginTime`, `ulTaskRunTime`, `ulTaskDDL`) as it was;
consequently the values a report block reads right after a step of the task
are those it read before it, so two consecutive reports print the same
values. -/
theorem task_steps_preserve_instr (cfg : Config) (e : Env) (s : Sys)
    (a : TaskAState) (b : TaskBState) (c : TaskCState)
    (ha : a.pc ≠ PcA.delay) (hb : b.pc ≠ PcB.delay)
    (hc : c.pc ≠ PcC.firstDelay ∧ c.pc ≠ PcC.delay) :
    (TaskA cfg e (s, a)).1.instr = s.instr ∧
    (TaskB cfg e (s, b)).1.instr = s.instr ∧
    (TaskC cfg e (s, c)).1.instr = s.instr ∧
    (a.pc = PcA.report →
      (TaskA cfg e (s, a)).1.console = s.console ++ reportLines TaskA_report s.instr ∧
      reportLines TaskA_report (TaskA cfg e (s, a)).1.instr =
        reportLines TaskA_report s.instr) ∧
    (b.pc = PcB.report →
      (TaskB cfg e (s, b)).1.console = s.console ++ reportLines TaskB_report s.instr ∧
      reportLines TaskB_report (TaskB cfg e (s, b)).1.instr =
        reportLines TaskB_report s.instr) ∧
    (c.pc = PcC.report →
      (TaskC cfg e (s, c)).1.console = s.console ++ reportLines TaskC_report s.instr ∧
      reportLines TaskC_report (TaskC cfg e (s, c)).1.instr =
        reportLines TaskC_report s.instr) := by
  have hA : (TaskA cfg e (s, a)).1.instr = s.instr := by
    obtain ⟨pc, w, wl, i⟩ := a
    cases pc <;> simp_all [TaskA, Sys.pass, Sys.print]
  have hB : (TaskB cfg e (s, b)).1.instr = s.instr := by
    obtain ⟨pc, w⟩ := b
    cases pc <;> simp_all [TaskB, Sys.pass, Sys.print]
  have hC : (TaskC cfg e (s, c)).1.instr = s.instr := by
    obtain ⟨pc, w⟩ := c
    cases pc <;> simp_all [TaskC, Sys.pass, Sys.print]
  refine ⟨hA, hB, hC, ?_, ?_, ?_⟩
  · intro h
    exact ⟨by simp [TaskA, h, Sys.pass, Sys.print], by rw [hA]⟩
  · intro h
    exact ⟨by simp [TaskB, h, Sys.pass, Sys.print], by rw [hB]⟩
  · intro h
    exact ⟨by simp [TaskC, h, Sys.pass, Sys.print], by rw [hC]⟩

/-- Instance of C6 at the report blocks of the three tasks. -/
theorem task_steps_preserve_instr_witness :
    TaskA_atReport.pc ≠ PcA.delay ∧ TaskB_atReport.pc ≠ PcB.delay ∧
    (TaskC_atReport.pc ≠ PcC.firstDelay ∧ TaskC_atReport.pc ≠ PcC.delay) ∧
    (TaskA sampleCfg (sampleEnv 0) (sampleSys, TaskA_atReport)).1.instr = sampleSys.instr ∧
    (TaskB sampleCfg (sampleEnv 0) (sampleSys, TaskB_atReport)).1.instr = sampleSys.instr ∧
    (TaskC sampleCfg (sampleEnv 0) (sampleSys, TaskC_atReport)).1.instr = sampleSys.instr :=
  have ha : TaskA_atReport.pc ≠ PcA.delay := by simp [TaskA_atReport]
  have hb : TaskB_atReport.pc ≠ PcB.delay := by decide
  have hc : TaskC_atReport.pc ≠ PcC.firstDelay ∧ TaskC_atReport.pc ≠ PcC.delay := by decide
  have h := task_steps_preserve_instr sampleCfg (sampleEnv 0) sampleSys TaskA_atReport
    TaskB_atReport TaskC_atReport ha hb hc
  ⟨ha, hb, hc, h.1, h.2.1, h.2.2.1⟩

/-! ## Periodic activation -/

/-- C7: with a 1 ms tick, a task started at tick `t0` returns from its `n`-th
periodic delay (`n ≥ 1`) at tick `t0 + 500 * n` for `TaskA`, `t0 + 5000 * n`
for `TaskB` and `t0 + 1000 + 500 * n` for `TaskC` (modulo `2 ^ 32`), whatever
time the other steps took; consecutive wake ticks differ by the period in
32-bit arithmetic, and the first delay of `TaskC` returns at `t0 + 1000`. -/
theorem wake_ticks (cfg : Config) (hz : cfg.configTICK_RATE_HZ = 1000) (env : Nat → Env)
    (s : Sys) (a : TaskAState) (b : TaskBState) (c : TaskCState)
    (ha : a.pc = PcA.entry) (hb : b.pc = PcB.entry) (hc : c.pc = PcC.entry)
    (n : Nat) (hn : 1 ≤ n) :
    ((run (TaskA cfg) env (2 + (n - 1) * TaskA_cycle) (s, a)).2.pc = PcA.forInit ∧
      (run (TaskA cfg) env (2 + (n - 1) * TaskA_cycle) (s, a)).2.xNextWakeTime =
        (s.tick + 500 * n) % 2 ^ 32 ∧
      (run (TaskA cfg) env (2 + (n - 1) * TaskA_cycle) (s, a)).1.tick =
        (s.tick + 500 * n) % 2 ^ 32) ∧
    ((run (TaskB cfg) env (2 * n) (s, b)).2.pc = PcB.report ∧
      (run (TaskB cfg) env (2 * n) (s, b)).2.xNextWakeTime = (s.tick + 5000 * n) % 2 ^ 32 ∧
      (run (TaskB cfg) env (2 * n) (s, b)).1.tick = (s.tick + 5000 * n) % 2 ^ 32) ∧
    ((run (TaskC cfg) env (2 * n + 1) (s, c)).2.pc = PcC.report ∧
      (run (TaskC cfg) env (2 * n + 1) (s, c)).2.xNextWakeTime =
        (s.tick + 1000 + 500 * n) % 2 ^ 32 ∧
      (run (TaskC cfg) env (2 * n + 1) (s, c)).1.tick =
        (s.tick + 1000 + 500 * n) % 2 ^ 32) ∧
    ((run (TaskC cfg) env 2 (s, c)).2.pc = PcC.delay ∧
      (run (TaskC cfg) env 2 (s, c)).1.tick = (s.tick + 1000) % 2 ^ 32) ∧
    ((run (TaskA cfg) env (2 + n * TaskA_cycle) (s, a)).2.xNextWakeTime + 2 ^ 32 -
        (run (TaskA cfg) env (2 + (n - 1) * TaskA_cycle) (s, a)).2.xNextWakeTime) % 2 ^ 32
      = 500 ∧
    ((run (TaskB cfg) env (2 * (n + 1)) (s, b)).2.xNextWakeTime + 2 ^ 32 -
        (run (TaskB cfg) env (2 * n) (s, b)).2.xNextWakeTime) % 2 ^ 32 = 5000 ∧
    ((run (TaskC cfg) env (2 * (n + 1) + 1) (s, c)).2.xNextWakeTime + 2 ^ 32 -
        (run (TaskC cfg) env (2 * n + 1) (s, c)).2.xNextWakeTime) % 2 ^ 32 = 500 := by
  obtain ⟨m, rfl⟩ : ∃ m, n = m + 1 := ⟨n - 1, by omega⟩
  have pA : mainTASK_A_FREQUENCY_MS cfg = 500 := pdMS_TO_TICKS_500 cfg hz
  have pB : mainTASK_B_FREQUENCY_MS cfg = 5000 := pdMS_TO_TICKS_5000 cfg hz
  have eB : ∀ k, 2 * (k + 1) = 2 + 2 * k := fun k => by ring
  have eC : ∀ k, 2 + 2 * k + 1 = 3 + 2 * k := fun k => by ring
  have A1 := TaskA_wake cfg env s a ha m
  have A2 := TaskA_wake cfg env s a ha (m + 1)
  have B1 := TaskB_wake cfg env s b hb m
  have B2 := TaskB_wake cfg env s b hb (m + 1)
  have C1 := TaskC_wake cfg env s c hc m
  have C2 := TaskC_wake cfg env s c hc (m + 1)
  have C0 := TaskC_first cfg env s c hc
  rw [pA] at A1 A2 C1 C2
  rw [pB] at B1 B2
  simp only [tickModulus] at A1 A2 B1 B2 C1 C2 C0
  rw [eB m, eB (m + 1), eC m, eC (m + 1), Nat.add_sub_cancel]
  refine ⟨A1, B1, C1, ⟨C0.1, C0.2.2⟩, ?_, ?_, ?_⟩
  · rw [A2.2.1, A1.2.1]
    generalize s.tick = t
    omega
  · rw [B2.2.1, B1.2.1]
    generalize s.tick = t
    omega
  · rw [C2.2.1, C1.2.1]
    generalize s.tick = t
    omega

/-- Instance of C7: third wake tick of each task, started at tick 0. -/
theorem wake_ticks_witness :
    sampleCfg.configTICK_RATE_HZ = 1000 ∧ TaskA_entry.pc = PcA.entry ∧
    TaskB_entry.pc = PcB.entry ∧ TaskC_entry.pc = PcC.entry ∧ 1 ≤ 3 ∧
    (run (TaskA sampleCfg) sampleEnv (2 + (3 - 1) * TaskA_cycle)
      (sampleSys, TaskA_entry)).1.tick = 1500 ∧
    (run (TaskB sampleCfg) sampleEnv (2 * 3) (sampleSys, TaskB_entry)).1.tick = 15000 ∧
    (run (TaskC sampleCfg) sampleEnv (2 * 3 + 1) (sampleSys, TaskC_entry)).1.tick = 2500 :=
  have h := wake_ticks sampleCfg rfl sampleEnv sampleSys TaskA_entry TaskB_entry
    TaskC_entry rfl rfl rfl 3 (by decide)
  ⟨rfl, rfl, rfl, rfl, by decide, h.1.2.2, h.2.1.2.2, h.2.2.1.2.2⟩

/-! ## Work loop of `TaskA` -/

/-- C10: from the initialisation of the work loop of `TaskA`, for every
workload value, instrumentation state and timing, the loop test is reached
with `i = 0, 1, ..., 99999` in this order, the body runs exactly for
`i = 0, ..., 99998` (99999 iterations), the failing test at `i = 99999`
leads to the report block, and the step after it is back at the delay call. -/
theorem TaskA_work_bounded (cfg : Config) (env : Nat → Env) (s : Sys) (l : TaskAState)
    (h : l.pc = PcA.forInit) :
    (∀ j : Nat, j ≤ 99999 →
      (run (TaskA cfg) env (1 + 2 * j) (s, l)).2.pc = PcA.forTest ∧
      (run (TaskA cfg) env (1 + 2 * j) (s, l)).2.i = (j : Int)) ∧
    (∀ j : Nat, j < 99999 →
      (run (TaskA cfg) env (2 + 2 * j) (s, l)).2.pc = PcA.forBody ∧
      (run (TaskA cfg) env (2 + 2 * j) (s, l)).2.i = (j : Int)) ∧
    (run (TaskA cfg) env (1 + 2 * 99999 + 1) (s, l)).2.pc = PcA.report ∧
    (run (TaskA cfg) env (1 + 2 * 99999 + 2) (s, l)).2.pc = PcA.delay := by
  have h0 : (run (TaskA cfg) env 0 (s, l)).2.pc = PcA.forInit := h
  refine ⟨?_, ?_, ?_, ?_⟩
  · intro j hj
    have := TaskA_loop_test cfg env (s, l) 0 h0 j hj
    rw [show 0 + 1 + 2 * j = 1 + 2 * j by ring] at this
    exact ⟨this.1, this.2.1⟩
  · intro j hj
    have := TaskA_loop_body cfg env (s, l) 0 h0 j hj
    rw [show 0 + 2 + 2 * j = 2 + 2 * j by ring] at this
    exact this
  · rw [show (1 + 2 * 99999 + 1 : Nat) = 0 + 200000 by norm_num]
    exact (TaskA_loop_exit cfg env (s, l) 0 h0).1
  · rw [show (1 + 2 * 99999 + 2 : Nat) = 0 + 200001 by norm_num]
    exact (TaskA_loop_exit cfg env (s, l) 0 h0).2.1

/-- Instance of C10 for a workload of 2.0 at tick 0. -/
theorem TaskA_work_bounded_witness :
    TaskA_forInit.pc = PcA.forInit ∧
    (run (TaskA sampleCfg) sampleEnv (1 + 2 * 99999 + 1) (sampleSys, TaskA_forInit)).2.pc =
      PcA.report ∧
    (run (TaskA sampleCfg) sampleEnv (1 + 2 * 99999 + 2) (sampleSys, TaskA_forInit)).2.pc =
      PcA.delay :=
  have h := TaskA_work_bounded sampleCfg sampleEnv sampleSys TaskA_forInit rfl
  ⟨rfl, h.2.2.1, h.2.2.2⟩

/-! ## Report blocks and the instrumentation arrays -/

/-- C8, the claim fails: A, B, C are registered with sequence numbers 0, 1, 2,
but on an instrumentation state whose begin times are 100, 200, 300, 400 the
report of `TaskA` prints 200, not the begin time 100 of slot 0; `TaskB` prints
300, not that of slot 1; `TaskC` prints 400, not that of slot 2. -/
theorem report_beginTime_not_own_slot :
    (main_hw2 3 allAllocOk Kernel.initial).registry.map
        (fun d => (d.entryFunction, d.sequenceNumber)) =
      [(TaskCode.TaskA, 0), (TaskCode.TaskB, 1), (TaskCode.TaskC, 2)] ∧
    reportedBeginTime TaskA_report sampleInstr = some (Value.num 200) ∧
    beginTimeOf sampleInstr 0 = some (Value.num 100) ∧
    reportedBeginTime TaskA_report sampleInstr ≠ beginTimeOf sampleInstr 0 ∧
    reportedBeginTime TaskB_report sampleInstr ≠ beginTimeOf sampleInstr 1 ∧
    reportedBeginTime TaskC_report sampleInstr ≠ beginTimeOf sampleInstr 2 := by
  refine ⟨?_, by decide, by decide, by decide, by decide, by decide⟩
  rw [main_hw2_registry 3 allAllocOk (le_refl 3) (fun _ => rfl)]
  rfl

/-- C8, amended: when the three creations succeed, A, B, C are registered in
creation order with sequence numbers 0, 1, 2, and the begin time each task
reports is read from `ulTaskBeginTime` at its sequence number plus one:
`TaskA` index 1, `TaskB` index 2, `TaskC` index 3. -/
theorem report_beginTime_index (capacity : Nat) (allocOk : Fin 3 → Bool)
    (hcap : 3 ≤ capacity) (halloc : ∀ i, allocOk i = true) (instr : Instr) :
    (main_hw2 capacity allocOk Kernel.initial).registry.map
        (fun d => (d.entryFunction, d.sequenceNumber)) =
      [(TaskCode.TaskA, 0), (TaskCode.TaskB, 1), (TaskCode.TaskC, 2)] ∧
    (main_hw2 capacity allocOk Kernel.initial).registry.all
        (fun d => decide (reportedBeginTime (reportOf d.entryFunction) instr =
          beginTimeOf instr (d.sequenceNumber + 1))) = true ∧
    reportedBeginTime TaskA_report instr = beginTimeOf instr 1 ∧
    reportedBeginTime TaskB_report instr = beginTimeOf instr 2 ∧
    reportedBeginTime TaskC_report instr = beginTimeOf instr 3 := by
  rw [main_hw2_registry capacity allocOk hcap halloc]
  refine ⟨rfl, ?_, rfl, rfl, rfl⟩
  simp [reportOf, reportedBeginTime, beginTimeOf, TaskA_report, TaskB_report, TaskC_report,
    Arg.read]

/-- Instance of the amended C8 on the sample instrumentation state. -/
theorem report_beginTime_index_witness :
    3 ≤ 3 ∧ (∀ i, allAllocOk i = true) ∧
    reportedBeginTime TaskA_report sampleInstr = beginTimeOf sampleInstr 1 ∧
    reportedBeginTime TaskB_report sampleInstr = beginTimeOf sampleInstr 2 ∧
    reportedBeginTime TaskC_report sampleInstr = beginTimeOf sampleInstr 3 :=
  ⟨le_refl 3, fun _ => rfl,
    (report_beginTime_index 3 allAllocOk (le_refl 3) (fun _ => rfl) sampleInstr).2.2⟩

theorem readCString_isSome_iff (buf : List Char) :
    (readCString buf).isSome = true ↔ Char.ofNat 0 ∈ buf := by
  induction buf with
  | nil => simp [readCString]
  | cons c rest ih =>
    by_cases hc : c = Char.ofNat 0
    · simp [readCString, hc]
    · have hc2 : ¬ Char.ofNat 0 = c := fun h => hc h.symm
      simp [readCString, hc, hc2, ih]

/-- C9, the claim fails: with four-element arrays and a task name of 20
letters without a NUL, the state is well formed and the capacity is at least
4, yet the `%6s` read of `ulTaskname` in each report block runs past the
array, so not every instrumentation read is in bounds. -/
theorem report_read_unterminated_name :
    unterminatedNameInstr.WellFormed sampleCfg ∧
    4 ≤ sampleCfg.configEXPECTED_EDF_TASKS ∧
    Arg.ulTaskname ∈ TaskA_report.flatMap (fun p => p.args) ∧
    Arg.read unterminatedNameInstr Arg.ulTaskname = none ∧
    readsInBounds TaskA_report unterminatedNameInstr = false ∧
    readsInBounds TaskB_report unterminatedNameInstr = false ∧
    readsInBounds TaskC_report unterminatedNameInstr = false ∧
    (readsInBounds TaskA_report unterminatedNameInstr &&
      readsInBounds TaskB_report unterminatedNameInstr &&
      readsInBounds TaskC_report unterminatedNameInstr) = false := by
  refine ⟨⟨by decide, by decide, by decide, by decide⟩, by decide, by decide,
    by decide, by decide, by decide, by decide, by decide⟩

/-- C9, amended: the largest array index at which the report blocks of
`TaskA`, `TaskB` and `TaskC` read `ulTaskNumber` or `ulTaskBeginTime` is 3; on
an instrumentation state whose arrays have `configEXPECTED_EDF_TASKS` elements
every read of these two arrays is in bounds exactly when that capacity is at
least 4, and every instrumentation read of the three blocks, the `%6s` read of
`ulTaskname` included, is in bounds exactly when the capacity is at least 4
and `ulTaskname` holds a NUL; with a capacity of 3 the read `ulTaskNumber[3]`
of `TaskA` and the read `ulTaskBeginTime[3]` of `TaskC` are out of range. -/
theorem report_reads_in_bounds_iff (cfg : Config) (instr : Instr)
    (h : instr.WellFormed cfg) :
    (readIndices (TaskA_report ++ TaskB_report ++ TaskC_report)).max? = some 3 ∧
    ((indexedReadsInBounds TaskA_report instr && indexedReadsInBounds TaskB_report instr &&
        indexedReadsInBounds TaskC_report instr) = true ↔
      4 ≤ cfg.configEXPECTED_EDF_TASKS) ∧
    ((readsInBounds TaskA_report instr && readsInBounds TaskB_report instr &&
        readsInBounds TaskC_report instr) = true ↔
      4 ≤ cfg.configEXPECTED_EDF_TASKS ∧ Char.ofNat 0 ∈ instr.ulTaskname) ∧
    (cfg.configEXPECTED_EDF_TASKS = 3 →
      Arg.ulTaskNumber 3 ∈ TaskA_report.flatMap (fun p => p.args) ∧
      Arg.read instr (Arg.ulTaskNumber 3) = none ∧
      Arg.ulTaskBeginTime 3 ∈ TaskC_report.flatMap (fun p => p.args) ∧
      Arg.read instr (Arg.ulTaskBeginTime 3) = none ∧
      readsInBounds TaskA_report instr = false ∧
      readsInBounds TaskC_report instr = false) := by
  obtain ⟨-, hn, hb, -⟩ := h
  have sN : ∀ i, (instr.ulTaskNumber[i]?).isSome = decide (i < cfg.configEXPECTED_EDF_TASKS) := by
    intro i
    by_cases hi : i < cfg.configEXPECTED_EDF_TASKS
    · rw [List.getElem?_eq_getElem (by omega)]; simp [hi]
    · rw [List.getElem?_eq_none (by omega)]; simp [hi]
  have sB : ∀ i, (instr.ulTaskBeginTime[i]?).isSome =
      decide (i < cfg.configEXPECTED_EDF_TASKS) := by
    intro i
    by_cases hi : i < cfg.configEXPECTED_EDF_TASKS
    · rw [List.getElem?_eq_getElem (by omega)]; simp [hi]
    · rw [List.getElem?_eq_none (by omega)]; simp [hi]
  have sS := readCString_isSome_iff instr.ulTaskname
  refine ⟨by decide, ?_, ?_, ?_⟩
  · simp only [indexedReadsInBounds, TaskA_report, TaskB_report, TaskC_report, Arg.read,
      Arg.arrayIndex, List.all_cons, List.all_nil, Option.isSome_map', sN, sB,
      Bool.and_true, Bool.and_eq_true, decide_eq_true_eq, Bool.true_and]
    omega
  · simp only [readsInBounds, TaskA_report, TaskB_report, TaskC_report, Arg.read,
      List.all_cons, List.all_nil, Option.isSome_map', sN, sB, Option.isSome_some,
      Bool.and_true, Bool.and_eq_true, decide_eq_true_eq, Bool.true_and, sS]
    constructor
    · rintro ⟨⟨⟨⟨h1, h2, h3⟩, hz, -⟩, -⟩, -⟩
      exact ⟨by omega, hz⟩
    · rintro ⟨h4, hz⟩
      exact ⟨⟨⟨⟨by omega, by omega, by omega⟩, hz, by omega⟩, hz, by omega⟩,
        hz, by omega⟩
  · intro h3
    refine ⟨by decide, ?_, by decide, ?_, ?_, ?_⟩
    · simp only [Arg.read, Option.map_eq_none', List.getElem?_eq_none_iff]; omega
    · simp only [Arg.read, Option.map_eq_none', List.getElem?_eq_none_iff]; omega
    · simp only [readsInBounds, TaskA_report, Arg.read, List.all_cons, List.all_nil,
        Option.isSome_map', sN, sB, h3, Option.isSome_some]
      simp
    · simp only [readsInBounds, TaskC_report, Arg.read, List.all_cons, List.all_nil,
        Option.isSome_map', sN, sB, h3, Option.isSome_some]
      simp

/-- Instance of the amended C9 on the sample instrumentation state, whose
arrays have four elements and whose task name is NUL-terminated: every read is
in bounds. -/
theorem report_reads_in_bounds_iff_witness :
    sampleInstr.WellFormed sampleCfg ∧
    (readsInBounds TaskA_report sampleInstr && readsInBounds TaskB_report sampleInstr &&
        readsInBounds TaskC_report sampleInstr) = true :=
  have hw : sampleInstr.WellFormed sampleCfg := ⟨by decide, by decide, by decide, by decide⟩
  ⟨hw, (report_reads_in_bounds_iff sampleCfg sampleInstr hw).2.2.1.mpr
    ⟨by decide, by decide⟩⟩

end RTOShw2
